import Mathlib

/-!
# Verification of the page-contract / routes-ssr execution model

Shallow embedding of the route-matching, page-function dispatch and SEO
projection code of the monorepo (packages/page-contract, packages/routes-dsl)
together with proofs about the behaviours its specification describes.

JavaScript values are modelled as follows: objects used as string maps become
association lists (`List (String × α)`) with JS assignment semantics
(first-position, last-value); `undefined`/absent values become `Option`;
a function that can throw becomes `Except`; the thrown value type and the
route-context type stay abstract (`E`, `Ctx`).
-/

namespace PageContract

/-- JS single-character `String.prototype.split`: `"/a/b".split('/') = ["", "a", "b"]`. -/
def jsSplitChars (c : Char) : List Char → List Char → List String
  | [], acc => [String.mk acc.reverse]
  | d :: rest, acc =>
    if d = c then String.mk acc.reverse :: jsSplitChars c rest []
    else jsSplitChars c rest (d :: acc)

/-- JS `s.split(c)` for a single-character separator. -/
def jsSplit (c : Char) (s : String) : List String :=
  jsSplitChars c s.data []

/-- `pattern.split('/').filter(Boolean)`: the non-empty `/`-separated segments. -/
def segs (s : String) : List String :=
  (jsSplit '/' s).filter (fun x => x ≠ "")

/-- `url.split('?')[0]`: the part of a URL before the first question mark. -/
def stripQuery (url : String) : String :=
  (jsSplit '?' url).headD ""

/-- JS `s.startsWith(pre)` (written over the character lists so that concrete
instances reduce inside the kernel). -/
def jsStartsWith (s pre : String) : Bool :=
  pre.data.isPrefixOf s.data

/-- JS `s.slice(1)`: drop the first character. -/
def jsSlice1 (s : String) : String :=
  String.mk (s.data.drop 1)

deriving instance DecidableEq for Except

/-- Lookup in a JS object viewed as an association list (`obj[k]`). -/
def objGet {α : Type} : List (String × α) → String → Option α
  | [], _ => none
  | (k0, v0) :: rest, k => if k0 = k then some v0 else objGet rest k

/-- JS object assignment `obj[k] = v`: overwrite in place if the key exists,
append otherwise (keys keep their first-insertion position). -/
def objSet {α : Type} : List (String × α) → String → α → List (String × α)
  | [], k, v => [(k, v)]
  | (k0, v0) :: rest, k, v =>
    if k0 = k then (k0, v) :: rest else (k0, v0) :: objSet rest k v

/-- `Object.fromEntries`: build an object from entries, later entries winning. -/
def fromEntriesLast (l : List (String × String)) : List (String × String) :=
  l.foldl (fun acc kv => objSet acc kv.1 kv.2) []

/-- Value of a hexadecimal digit character, if any. -/
def hexVal (c : Char) : Option Nat :=
  if '0' ≤ c ∧ c ≤ '9' then some (c.toNat - 48)
  else if 'A' ≤ c ∧ c ≤ 'F' then some (c.toNat - 55)
  else if 'a' ≤ c ∧ c ≤ 'f' then some (c.toNat - 87)
  else none

/-- One unit of a percent-encoded string: either a plain character or the byte
of a `%XX` escape. -/
abbrev PctTok := Sum Char Nat

/-- Split a character list into plain characters and `%XX` escape bytes,
failing (like `decodeURIComponent`, which throws `URIError`) on a `%` that is
not followed by two hex digits. -/
def pctTokenize : List Char → Option (List PctTok)
  | [] => some []
  | '%' :: h1 :: h2 :: rest =>
    match hexVal h1, hexVal h2 with
    | some a, some b => (pctTokenize rest).map (fun ts => Sum.inr (16 * a + b) :: ts)
    | _, _ => none
  | '%' :: _ => none
  | c :: cs => (pctTokenize cs).map (fun ts => Sum.inl c :: ts)

/-- Decode the escape bytes of a token list as UTF-8 (escapes must form valid
UTF-8 sequences on their own: overlong encodings, surrogates and code points
above U+10FFFF are rejected, as `decodeURIComponent` rejects them). -/
def pctDecodeToks : List PctTok → Option (List Char)
  | [] => some []
  | Sum.inl c :: ts => (pctDecodeToks ts).map (fun cs => c :: cs)
  | Sum.inr b :: ts =>
    if b < 0x80 then (pctDecodeToks ts).map (fun cs => Char.ofNat b :: cs)
    else if 0xC0 ≤ b ∧ b ≤ 0xDF then
      match ts with
      | Sum.inr c1 :: ts2 =>
        if 0x80 ≤ c1 ∧ c1 ≤ 0xBF then
          let cp := (b - 0xC0) * 64 + (c1 - 0x80)
          if 0x80 ≤ cp then (pctDecodeToks ts2).map (fun cs => Char.ofNat cp :: cs)
          else none
        else none
      | _ => none
    else if 0xE0 ≤ b ∧ b ≤ 0xEF then
      match ts with
      | Sum.inr c1 :: Sum.inr c2 :: ts2 =>
        if (0x80 ≤ c1 ∧ c1 ≤ 0xBF) ∧ (0x80 ≤ c2 ∧ c2 ≤ 0xBF) then
          let cp := (b - 0xE0) * 4096 + (c1 - 0x80) * 64 + (c2 - 0x80)
          if 0x800 ≤ cp ∧ ¬(0xD800 ≤ cp ∧ cp ≤ 0xDFFF) then
            (pctDecodeToks ts2).map (fun cs => Char.ofNat cp :: cs)
          else none
        else none
      | _ => none
    else if 0xF0 ≤ b ∧ b ≤ 0xF4 then
      match ts with
      | Sum.inr c1 :: Sum.inr c2 :: Sum.inr c3 :: ts2 =>
        if (0x80 ≤ c1 ∧ c1 ≤ 0xBF) ∧ (0x80 ≤ c2 ∧ c2 ≤ 0xBF) ∧ (0x80 ≤ c3 ∧ c3 ≤ 0xBF) then
          let cp := (b - 0xF0) * 262144 + (c1 - 0x80) * 4096 + (c2 - 0x80) * 64 + (c3 - 0x80)
          if 0x10000 ≤ cp ∧ cp ≤ 0x10FFFF then
            (pctDecodeToks ts2).map (fun cs => Char.ofNat cp :: cs)
          else none
        else none
      | _ => none
    else none

/-- Model of the JS builtin `decodeURIComponent`: `none` models the thrown
`URIError` on malformed input. -/
def decodeURIComponent? (s : String) : Option String := do
  let ts ← pctTokenize s.data
  let cs ← pctDecodeToks ts
  pure (String.mk cs)

/-- JS `value || defaultValue` on an optional number (`0` is falsy). -/
def jsOrNat (v : Option Nat) (d : Nat) : Nat :=
  match v with
  | some n => if n = 0 then d else n
  | none => d

/-- JS `value || defaultValue` on a string (`""` is falsy). -/
def jsOrStr (v : String) (d : String) : String :=
  if v = "" then d else v

/-- JS `value || defaultValue` on an optional string. -/
def jsOrOptStr (v : Option String) (d : String) : String :=
  match v with
  | some s => jsOrStr s d
  | none => d

/-!
## Route pattern matching

`matchPath` is translated from `packages/page-contract/src/factory.ts`
(lines 222-245); the copy inside the `createRoutes` factory of the later
iteration (`src/unnamed/part_010`, lines 284-307) is character-for-character
identical. The result type `Except Unit (Option _)` separates the function
returning `null` (`Except.ok none`) from `decodeURIComponent` throwing
(`Except.error ()`).
-/

/-- The `for` loop of `matchPath`, running over the two segment lists in
parallel and accumulating the `params` object. -/
def matchSegs : List String → List String → List (String × String) →
    Except Unit (Option (List (String × String)))
  | [], [], ps => Except.ok (some ps)
  | p :: pr, s :: sr, ps =>
    if jsStartsWith p ":" then
      match decodeURIComponent? s with
      | none => Except.error ()
      | some v => matchSegs pr sr (objSet ps (jsSlice1 p) v)
    else if p = s then matchSegs pr sr ps
    else Except.ok none
  | _, _, _ => Except.ok none

/-- `matchPath(pattern, pathname)` from the source: `null` on a segment-count
mismatch or a literal-segment mismatch, otherwise the params object binding the
URL-decoded pathname segment for each pattern segment starting with `:`. -/
def matchPath (pattern pathname : String) :
    Except Unit (Option (List (String × String))) :=
  if (segs pattern).length ≠ (segs pathname).length then Except.ok none
  else matchSegs (segs pattern) (segs pathname) []

/-!
## `extractParams` and `parseQuery` (`packages/page-contract/src/utils.ts`)
-/

/-- The `forEach` of `extractParams`: walk the pattern segments with their
index, binding `:name` segments to the URL-decoded URL segment at the same
index when that segment exists. -/
def extractGo (urlParts : List String) :
    List String → Nat → List (String × String) →
    Except Unit (List (String × String))
  | [], _, acc => Except.ok acc
  | p :: pr, i, acc =>
    if jsStartsWith p ":" then
      match urlParts.get? i with
      | none => extractGo urlParts pr (i + 1) acc
      | some s =>
        match decodeURIComponent? s with
        | none => Except.error ()
        | some v => extractGo urlParts pr (i + 1) (objSet acc (jsSlice1 p) v)
    else extractGo urlParts pr (i + 1) acc

/-- `extractParams(pattern, url)`: strips the query string, returns the empty
object when the URL has fewer non-empty segments than the pattern, and
otherwise binds every `:name` pattern segment positionally. `Except.error`
models the `URIError` thrown by `decodeURIComponent` escaping the function. -/
def extractParams (pattern url : String) :
    Except Unit (List (String × String)) :=
  let urlPath := stripQuery url
  let patternParts := segs pattern
  let urlParts := segs urlPath
  if urlParts.length < patternParts.length then Except.ok []
  else extractGo urlParts patternParts 0 []

/-- A query value: a plain string, or an array once a key repeats. -/
inductive QueryVal : Type
  | single (s : String)
  | multi (l : List String)
  deriving DecidableEq, Repr

/-- JS truthiness of a query value (`""` is falsy, any array is truthy). -/
def qvTruthy : QueryVal → Bool
  | QueryVal.single s => s ≠ ""
  | QueryVal.multi _ => true

/-- The accumulation step of `parseQuery`: an existing truthy string becomes a
two-element array, an existing array is pushed to, anything else is set. -/
def addQueryEntry (q : List (String × QueryVal)) (k v : String) :
    List (String × QueryVal) :=
  match objGet q k with
  | some qv =>
    if qvTruthy qv then
      match qv with
      | QueryVal.multi l => objSet q k (QueryVal.multi (l ++ [v]))
      | QueryVal.single s => objSet q k (QueryVal.multi [s, v])
    else objSet q k (QueryVal.single v)
  | none => objSet q k (QueryVal.single v)

/-- Lenient tokenizer of `application/x-www-form-urlencoded` text: `+` is a
space, a valid `%XX` is an escape byte, anything else stays literal.
Modelled from the `URLSearchParams` builtin, which never throws. -/
def formTokenize : List Char → List PctTok
  | [] => []
  | '+' :: cs => Sum.inl ' ' :: formTokenize cs
  | '%' :: h1 :: h2 :: rest =>
    match hexVal h1, hexVal h2 with
    | some a, some b => Sum.inr (16 * a + b) :: formTokenize rest
    | _, _ => Sum.inl '%' :: formTokenize (h1 :: h2 :: rest)
  | c :: cs => Sum.inl c :: formTokenize cs

/-- Decode one UTF-8 unit with lead byte `b` from the token list, returning
the character and the unconsumed tokens; an invalid sequence yields U+FFFD
and consumes only the lead byte. -/
def formDecodeOne (b : Nat) (ts : List PctTok) : Char × List PctTok :=
  if b < 0x80 then (Char.ofNat b, ts)
  else if 0xC0 ≤ b ∧ b ≤ 0xDF then
    match ts with
    | Sum.inr c1 :: ts2 =>
      if 0x80 ≤ c1 ∧ c1 ≤ 0xBF ∧ 0x80 ≤ (b - 0xC0) * 64 + (c1 - 0x80) then
        (Char.ofNat ((b - 0xC0) * 64 + (c1 - 0x80)), ts2)
      else (Char.ofNat 0xFFFD, Sum.inr c1 :: ts2)
    | _ => (Char.ofNat 0xFFFD, ts)
  else if 0xE0 ≤ b ∧ b ≤ 0xEF then
    match ts with
    | Sum.inr c1 :: Sum.inr c2 :: ts2 =>
      if (0x80 ≤ c1 ∧ c1 ≤ 0xBF) ∧ (0x80 ≤ c2 ∧ c2 ≤ 0xBF) ∧
          (let cp := (b - 0xE0) * 4096 + (c1 - 0x80) * 64 + (c2 - 0x80)
           0x800 ≤ cp ∧ ¬(0xD800 ≤ cp ∧ cp ≤ 0xDFFF)) then
        (Char.ofNat ((b - 0xE0) * 4096 + (c1 - 0x80) * 64 + (c2 - 0x80)), ts2)
      else (Char.ofNat 0xFFFD, Sum.inr c1 :: Sum.inr c2 :: ts2)
    | _ => (Char.ofNat 0xFFFD, ts)
  else if 0xF0 ≤ b ∧ b ≤ 0xF4 then
    match ts with
    | Sum.inr c1 :: Sum.inr c2 :: Sum.inr c3 :: ts2 =>
      if (0x80 ≤ c1 ∧ c1 ≤ 0xBF) ∧ (0x80 ≤ c2 ∧ c2 ≤ 0xBF) ∧
          (0x80 ≤ c3 ∧ c3 ≤ 0xBF) ∧
          (let cp := (b - 0xF0) * 262144 + (c1 - 0x80) * 4096 +
            (c2 - 0x80) * 64 + (c3 - 0x80)
           0x10000 ≤ cp ∧ cp ≤ 0x10FFFF) then
        (Char.ofNat ((b - 0xF0) * 262144 + (c1 - 0x80) * 4096 +
          (c2 - 0x80) * 64 + (c3 - 0x80)), ts2)
      else (Char.ofNat 0xFFFD, Sum.inr c1 :: Sum.inr c2 :: Sum.inr c3 :: ts2)
    | _ => (Char.ofNat 0xFFFD, ts)
  else (Char.ofNat 0xFFFD, ts)

/-- Lenient UTF-8 decoding of form tokens; an invalid byte becomes U+FFFD and
decoding continues (modelled from the replacement-mode decoding the
`URLSearchParams` builtin uses). -/
def formDecodeToks : List PctTok → List Char
  | [] => []
  | Sum.inl c :: ts => c :: formDecodeToks ts
  | Sum.inr b :: ts =>
    (formDecodeOne b ts).1 :: formDecodeToks (formDecodeOne b ts).2
termination_by l => l.length
decreasing_by
  all_goals simp_arith
  unfold formDecodeOne
  repeat' split
  all_goals simp_arith

/-- Form-urlencoded decoding of one name or value (a `URLSearchParams` model). -/
def formDecode (s : String) : String :=
  String.mk (formDecodeToks (formTokenize s.data))

/-- Parse a query string into a pair list the way `URLSearchParams` iterates
it: split on `&`, ignore empty pieces, split each piece at the first `=`
(missing `=` gives an empty value), decode names and values. -/
def urlSearchParamsParse (qs : String) : List (String × String) :=
  (jsSplit '&' qs).filterMap (fun piece =>
    if piece = "" then none
    else
      let name := piece.data.takeWhile (fun c => c ≠ '=')
      let value := (piece.data.dropWhile (fun c => c ≠ '=')).drop 1
      some (formDecode (String.mk name), formDecode (String.mk value)))

/-- `parseQuery(url)` from `utils.ts`: take `url.split('?')[1]`, return the
empty object when it is absent or empty, otherwise aggregate the
`URLSearchParams` entries, turning repeated keys into arrays. -/
def parseQuery (url : String) : List (String × QueryVal) :=
  match (jsSplit '?' url).get? 1 with
  | none => []
  | some qs =>
    if qs = "" then []
    else (urlSearchParamsParse qs).foldl
      (fun q kv => addQueryEntry q kv.1 kv.2) []

/-- `new URL(url).pathname` for an absolute URL, modelled from the URL
builtin: the part after the authority up to the query or fragment, `/` when
that part is empty. -/
def urlPathname (url : String) : String :=
  let afterScheme :=
    if (url.data.dropWhile (fun c => c ≠ ':')).take 3 = [':', '/', '/'] then
      (url.data.dropWhile (fun c => c ≠ ':')).drop 3
    else url.data
  let afterHost := afterScheme.dropWhile (fun c => c ≠ '/' ∧ c ≠ '?' ∧ c ≠ '#')
  let path := afterHost.takeWhile (fun c => c ≠ '?' ∧ c ≠ '#')
  if path = [] then "/" else String.mk path

/-!
## Page contract types (`packages/page-contract/src/types.ts`)

`E` is the type of thrown/attached error values (`unknown` in the source),
`Ctx` the route-context type.
-/

/-- `SeoDescriptor` of the page-contract package. -/
structure SeoDescriptor : Type where
  title : Option String
  description : Option String
  meta : Option (List (String × String))
  deriving DecidableEq, Repr

/-- `PageResult<Ctx>`: the tagged union every adapter consumes. The source
field `to` of the `redirect` variant is called `toUrl` here (`to` is reserved
in Lean). -/
inductive PageResult (E Ctx : Type) : Type
  | ok (ctx : Ctx) (seo : Option SeoDescriptor) (status : Option Nat)
  | redirect (toUrl : String) (status : Option Nat)
  | notFound (ctx : Option Ctx) (seo : Option SeoDescriptor) (status : Option Nat)
  | error (error : E) (status : Option Nat)
  deriving DecidableEq, Repr

/-- `PageResultType`: the discriminant carried to the view layer. -/
inductive PageResultType : Type
  | ok
  | error
  | notFound
  | redirect
  deriving DecidableEq, Repr

/-- `request` field of `PageInput`. -/
structure RequestInfo : Type where
  url : String
  method : String
  deriving DecidableEq, Repr

/-- `PageInput`: the platform-agnostic input of a page function. -/
structure PageInput : Type where
  params : List (String × String)
  query : List (String × QueryVal)
  headers : Option (List (String × String))
  cookies : Option (List (String × String))
  request : Option RequestInfo
  deriving DecidableEq, Repr

/-- `PageViewInput`: `{...input, resultType}`. -/
structure PageViewInput : Type where
  input : PageInput
  resultType : PageResultType
  deriving DecidableEq, Repr

/-- A page function: an async function of the input that may throw
(`Except.error e` models a synchronous throw or a rejected promise,
both observed identically by an awaiting caller). -/
def PageFunction (E Ctx : Type) : Type :=
  PageInput → Except E (PageResult E Ctx)

/-- `RouteContract`: a path pattern plus its page function. -/
structure RouteContract (E Ctx : Type) : Type where
  path : String
  page : PageFunction E Ctx

/-- A context value as the adapters hand it to the view layer: either a page
supplied context or the sentinel object `{ notFound: true }` substituted for a
missing not-found context. -/
inductive CtxLike (Ctx : Type) : Type
  | ofCtx (c : Ctx)
  | notFoundSentinel
  deriving DecidableEq, Repr

/-!
## Runtime (`packages/page-contract/src/runtime.ts`)
-/

/-- `runPage(page, input)`: awaits the page function and converts a throw or
rejection into an `error` result with status 500. The return type being a bare
`PageResult` (no `Except`) is the model of "no exception escapes". -/
def runPage {E Ctx : Type} (page : PageFunction E Ctx) (input : PageInput) :
    PageResult E Ctx :=
  match page input with
  | Except.ok result => result
  | Except.error e => PageResult.error e (some 500)

/-!
## Fetch-API request/response model and JS builtins used by the adapters
-/

/-- A Fetch-API `Request` as the adapters read it: url, method and headers
(the `Headers` object is modelled as its unique-key entry list). -/
structure Request : Type where
  url : String
  method : String
  headers : List (String × String)
  deriving DecidableEq, Repr

/-- A Fetch-API `Response` as the adapters build it. -/
structure Response : Type where
  status : Nat
  body : Option String
  headers : List (String × String)
  deriving DecidableEq, Repr

/-- The JS builtins the adapters apply to values of the abstract types `E` and
`Ctx`: template-literal coercion of an error and `JSON.stringify`. They are
collaborators of the embedding, quantified over in every theorem. -/
structure JsBuiltins (E Ctx : Type) : Type where
  showErr : E → String
  stringifyOkBody : Ctx → Option SeoDescriptor → String
  stringifyCtx : CtxLike Ctx → String
  stringifyPageInput : Option PageViewInput → String

/-!
## SSR fetch adapter (`packages/page-contract/src/adapters/ssr-fetch.ts`)
-/

/-- Options of the fetch adapter. `render404` is declared by the source
interface but read nowhere in the adapter body, exactly as in the source. -/
structure SsrFetchAdapterOptions (E Ctx : Type) : Type where
  renderHtml :
    Option (CtxLike Ctx → Option SeoDescriptor → Request → Option PageViewInput → String)
  render404 : Option (Unit → String)
  renderError : Option (E → Option Nat → String)

/-- The `PageInput` the fetch adapter builds from the request (its
`params: extractParams(...)` value is passed in by the caller because
`extractParams` can throw, which the adapter lets escape). -/
def ssrInput (ps : List (String × String)) (request : Request) : PageInput :=
  { params := ps
    query := parseQuery request.url
    headers := some (fromEntriesLast request.headers)
    cookies := none
    request := some ⟨request.url, jsOrStr request.method "GET"⟩ }

/-- `handleSsrRequestFetch(route, request, options)`: run the page function on
the input extracted from the request and translate the `PageResult` into a
`Response`. `Except.error ()` models an exception escaping the adapter (only
possible while extracting params, before the page runs). -/
def handleSsrRequestFetch {E Ctx : Type} (route : RouteContract E Ctx)
    (request : Request) (options : SsrFetchAdapterOptions E Ctx)
    (js : JsBuiltins E Ctx) : Except Unit Response :=
  let pathname := urlPathname request.url
  match extractParams route.path pathname with
  | Except.error e => Except.error e
  | Except.ok ps =>
    let input := ssrInput ps request
    match runPage route.page input with
    | PageResult.redirect toUrl status =>
      Except.ok ⟨jsOrNat status 302, none, [("Location", toUrl)]⟩
    | PageResult.notFound ctx seo status =>
      let notFoundCtx :=
        match ctx with
        | some c => CtxLike.ofCtx c
        | none => CtxLike.notFoundSentinel
      let notFoundPageInput : PageViewInput := ⟨input, PageResultType.notFound⟩
      let notFoundHtml :=
        match options.renderHtml with
        | some rh => rh notFoundCtx seo request (some notFoundPageInput)
        | none => "<html><body><h1>404 Not Found</h1></body></html>"
      Except.ok ⟨jsOrNat status 404, some notFoundHtml,
        [("Content-Type", "text/html; charset=utf-8")]⟩
    | PageResult.error e status =>
      let errorHtml :=
        match options.renderError with
        | some re => re e status
        | none =>
          "<html><body><h1>Error " ++ toString (jsOrNat status 500) ++
            "</h1><p>" ++ js.showErr e ++ "</p></body></html>"
      Except.ok ⟨jsOrNat status 500, some errorHtml,
        [("Content-Type", "text/html; charset=utf-8")]⟩
    | PageResult.ok c seo status =>
      let okPageInput : PageViewInput := ⟨input, PageResultType.ok⟩
      let html :=
        match options.renderHtml with
        | some rh => rh (CtxLike.ofCtx c) seo request (some okPageInput)
        | none => js.stringifyOkBody c seo
      let contentType :=
        match options.renderHtml with
        | some _ => "text/html; charset=utf-8"
        | none => "application/json"
      Except.ok ⟨jsOrNat status 200, some html, [("Content-Type", contentType)]⟩

/-!
## SPA adapters (`packages/page-contract/src/adapters/spa.ts`, both
iterations, embedded from `src/packages/page-contract/src/utils.ts`
lines 97-151 (legacy) and 236-302 (current))

The `options.navigate` callback is a side effect; the embedding returns, next
to the adapter's value, the list of targets passed to `navigate` in order.
The in-place document-metadata mutation (`updateSeoMetadata`) is a browser
effect outside the result and is not part of the returned data.
-/

/-- SPA adapter options (without the `navigate` callback, which is modelled
as the emitted-navigation list of the result). -/
structure SpaAdapterOptions : Type where
  notFoundPath : Option String
  deriving DecidableEq, Repr

/-- The result object of the current SPA adapter. -/
structure SpaNavigationResult (Ctx : Type) : Type where
  ctx : Option (CtxLike Ctx)
  pageInput : Option PageViewInput
  seo : Option SeoDescriptor
  deriving DecidableEq, Repr

/-- Current `handleSpaNavigation(route, input, options)`: runs the page
function and returns `{ctx, pageInput, seo}` plus the navigations performed.
Note that its `not-found` branch never reads `options.notFoundPath`. -/
def handleSpaNavigation {E Ctx : Type} (route : RouteContract E Ctx)
    (input : PageInput) (options : SpaAdapterOptions) :
    SpaNavigationResult Ctx × List String :=
  match runPage route.page input with
  | PageResult.redirect toUrl _status =>
    (⟨none, some ⟨input, PageResultType.redirect⟩, none⟩, [toUrl])
  | PageResult.notFound ctx seo _status =>
    let notFoundCtx :=
      match ctx with
      | some c => CtxLike.ofCtx c
      | none => CtxLike.notFoundSentinel
    (⟨some notFoundCtx, some ⟨input, PageResultType.notFound⟩, seo⟩, [])
  | PageResult.error _e _status =>
    (⟨none, some ⟨input, PageResultType.error⟩, none⟩, ["/error"])
  | PageResult.ok c seo _status =>
    (⟨some (CtxLike.ofCtx c), some ⟨input, PageResultType.ok⟩, seo⟩, [])

/-- Legacy `handleSpaNavigation` (first iteration): returns only the context
or `null`, and on `not-found` always navigates to
`options.notFoundPath || '/404'`. -/
def handleSpaNavigationLegacy {E Ctx : Type} (route : RouteContract E Ctx)
    (input : PageInput) (options : SpaAdapterOptions) :
    Option Ctx × List String :=
  match runPage route.page input with
  | PageResult.redirect toUrl _status => (none, [toUrl])
  | PageResult.notFound _ctx _seo _status =>
    (none, [jsOrOptStr options.notFoundPath "/404"])
  | PageResult.error _e _status => (none, ["/error"])
  | PageResult.ok c _seo _status => (some c, [])

/-- A history operation performed by the host router. -/
structure HistoryOp : Type where
  toUrl : String
  replace : Bool
  deriving DecidableEq, Repr

/-- The `navigate` callback the repository's React Router adapter
(`src/unnamed/part_001`) hands to `handleSpaNavigation`:
`(to) => navigate(to, { replace: true })`. -/
def reactRouterNavigate (toUrl : String) : HistoryOp :=
  ⟨toUrl, true⟩

/-!
## SEO utilities (`packages/page-contract/src/utils/seo.ts`)
-/

/-- `escapeHtml`: entity-escape the five HTML special characters. -/
def escapeHtmlChar (c : Char) : String :=
  if c = '&' then "&amp;"
  else if c = '<' then "&lt;"
  else if c = '>' then "&gt;"
  else if c = '"' then "&quot;"
  else if c = '\'' then "&#039;"
  else String.singleton c

/-- `escapeHtml` applied to a whole string. -/
def escapeHtml (s : String) : String :=
  String.join (s.data.map escapeHtmlChar)

/-- JS truthiness of an optional string. -/
def optTruthy (o : Option String) : Bool :=
  match o with
  | some s => s ≠ ""
  | none => false

/-- `generateMetaTags(seo)`: title tag, description meta tag and the extra
`meta` entries (Open Graph / Twitter keys become `property` attributes),
joined with a newline and two spaces. -/
def generateMetaTags (seo : SeoDescriptor) : String :=
  let tags : List String :=
    (match seo.title with
     | some t => if t ≠ "" then ["<title>" ++ escapeHtml t ++ "</title>"] else []
     | none => []) ++
    (match seo.description with
     | some d =>
       if d ≠ "" then
         ["<meta name=\"description\" content=\"" ++ escapeHtml d ++ "\">"]
       else []
     | none => []) ++
    (match seo.meta with
     | some m =>
       m.map (fun kv =>
         let attr :=
           if jsStartsWith kv.1 "og:" ∨ jsStartsWith kv.1 "twitter:" then
             "property"
           else "name"
         "<meta " ++ attr ++ "=\"" ++ escapeHtml kv.1 ++ "\" content=\"" ++
           escapeHtml kv.2 ++ "\">")
     | none => [])
  String.intercalate "\n  " tags

/-- `.replace(/</g, '\\u003c')`: escape every `<` of a serialized value. -/
def escapeLt (s : String) : String :=
  String.join (s.data.map (fun c => if c = '<' then "\\u003c" else String.singleton c))

/-- `generateRouteContextScript(context, pageInput)`: the hydration script
exposing the serialized route context (and optionally the page input) on
well-known globals, with `<` escaped against script injection. -/
def generateRouteContextScript {E Ctx : Type} (js : JsBuiltins E Ctx)
    (context : CtxLike Ctx) (pageInput : Option PageViewInput) : String :=
  let contextJson := escapeLt (js.stringifyCtx context)
  let script := "<script>window.__ROUTE_CONTEXT__ = " ++ contextJson ++ ";"
  let script :=
    match pageInput with
    | some _ =>
      script ++ "\nwindow.__PAGE_INPUT__ = " ++
        escapeLt (js.stringifyPageInput pageInput) ++ ";"
    | none => script
  script ++ "</script>"

/-!
## Routes factory (`src/unnamed/part_010`, the later `createRoutes`)
-/

/-- Split a character list at the first occurrence of a pattern. -/
def findSplit : List Char → List Char → Option (List Char × List Char)
  | l, pat =>
    if pat.isPrefixOf l then some ([], l.drop pat.length)
    else
      match l with
      | [] => none
      | c :: cs => (findSplit cs pat).map (fun pr => (c :: pr.1, pr.2))

/-- JS `s.replace(pat, rep)` with a string pattern: replace the first
occurrence only (the `$`-substitution JS performs inside the replacement text
is not modelled; the source substitutes plain fragments). -/
def replaceFirst (s pat rep : String) : String :=
  match findSplit s.data pat.data with
  | none => s
  | some (pre, post) => String.mk (pre ++ rep.data ++ post)

/-- `matchRoute(pathname)`: first-registered-route-wins iteration over the
route map (a JS `Map` iterates in insertion order). -/
def matchRoute {E Ctx : Type} :
    List (String × RouteContract E Ctx) → String →
    Except Unit (Option (String × RouteContract E Ctx × List (String × String)))
  | [], _ => Except.ok none
  | (key, route) :: rest, pathname =>
    match matchPath route.path pathname with
    | Except.error e => Except.error e
    | Except.ok none => matchRoute rest pathname
    | Except.ok (some ps) => Except.ok (some (key, route, ps))

/-- Options of `createHandleRequest` in the later factory. -/
structure CreateHandleRequestOptions (E Ctx : Type) : Type where
  renderHtml :
    CtxLike Ctx → Option SeoDescriptor → Request → Option PageViewInput → String
  generateMetaTags : Option (SeoDescriptor → String)
  generateRouteContextScript :
    Option (CtxLike Ctx → Option PageViewInput → String)
  htmlTemplate : Option String
  clientEntry : Option String

/-- The default HTML template of the later factory (placeholders written with
escaped braces). -/
def defaultHtmlTemplate : String :=
  "<!DOCTYPE html>\n<html lang=\"en\">\n<head>\n  <meta charset=\"UTF-8\">\n  <meta name=\"viewport\" content=\"width=device-width, initial-scale=1.0\">\n  \x7b\x7bSEO\x7d\x7d\n  \x7b\x7bROUTE_CONTEXT\x7d\x7d\n</head>\n<body>\n  <div id=\"root\">\x7b\x7bCONTENT\x7d\x7d</div>\n\x7b\x7bCLIENT_ENTRY\x7d\x7d\n</body>\n</html>"

/-- The request handler produced by `createHandleRequest` of the later
factory: a 404 response when no route matches (the page function of no route
is consulted), otherwise the fetch adapter run with a render function that
wraps the application fragment into the full document (SEO tags, hydration
script, client entry). The `pageInputForRender` local of the source is dead
code and not reproduced. -/
def createHandleRequest {E Ctx : Type}
    (routes : List (String × RouteContract E Ctx))
    (options : CreateHandleRequestOptions E Ctx) (js : JsBuiltins E Ctx)
    (request : Request) : Except Unit Response :=
  let pathname := urlPathname request.url
  match matchRoute routes pathname with
  | Except.error e => Except.error e
  | Except.ok none =>
    Except.ok ⟨404, some "<html><body><h1>404 Not Found</h1></body></html>",
      [("Content-Type", "text/html; charset=utf-8")]⟩
  | Except.ok (some (_key, route, _ps)) =>
    let renderHtmlWithRequest :
        CtxLike Ctx → Option SeoDescriptor → Request → Option PageViewInput → String :=
      fun ctx seo _req pageInput =>
        let reactContent := options.renderHtml ctx seo request pageInput
        let generateMetaTagsFn := options.generateMetaTags.getD generateMetaTags
        let generateRouteContextScriptFn :=
          options.generateRouteContextScript.getD (generateRouteContextScript js)
        let seoTags :=
          match seo with
          | some s => generateMetaTagsFn s
          | none => ""
        let routeContextScript := generateRouteContextScriptFn ctx pageInput
        let clientEntryScript :=
          match options.clientEntry with
          | some ce => "  <script type=\"module\" src=\"" ++ ce ++ "\"></script>"
          | none => ""
        let template := options.htmlTemplate.getD defaultHtmlTemplate
        replaceFirst
          (replaceFirst
            (replaceFirst
              (replaceFirst template "\x7b\x7bCONTENT\x7d\x7d" reactContent)
              "\x7b\x7bSEO\x7d\x7d" seoTags)
            "\x7b\x7bROUTE_CONTEXT\x7d\x7d" routeContextScript)
          "\x7b\x7bCLIENT_ENTRY\x7d\x7d" clientEntryScript
    handleSsrRequestFetch route request ⟨some renderHtmlWithRequest, none, none⟩ js

/-- The `searchParams` argument of the factory's SPA entry point:
a `URLSearchParams` instance (modelled by its entry list), a raw query
string, or a plain record. -/
inductive SearchParamsArg : Type
  | usp (entries : List (String × String))
  | str (s : String)
  | record (entries : List (String × String))
  deriving DecidableEq, Repr

/-- The `inputOptions` of the factory's SPA entry point. -/
structure SpaInputOptions : Type where
  searchParams : Option SearchParamsArg
  headers : Option (List (String × String))
  cookies : Option (List (String × String))
  deriving DecidableEq, Repr

/-- Upper-case hex digit. -/
def hexDigitUpper (n : Nat) : Char :=
  if n < 10 then Char.ofNat (48 + n) else Char.ofNat (55 + n)

/-- UTF-8 encoding of a code point. -/
def utf8EncodeChar (n : Nat) : List Nat :=
  if n < 0x80 then [n]
  else if n < 0x800 then [0xC0 + n / 64, 0x80 + n % 64]
  else if n < 0x10000 then
    [0xE0 + n / 4096, 0x80 + (n / 64) % 64, 0x80 + n % 64]
  else
    [0xF0 + n / 262144, 0x80 + (n / 4096) % 64, 0x80 + (n / 64) % 64,
      0x80 + n % 64]

/-- Percent-encode one byte. -/
def pctOfByte (b : Nat) : String :=
  String.mk ['%', hexDigitUpper (b / 16), hexDigitUpper (b % 16)]

/-- Form-urlencoded serialization of one character (a `URLSearchParams`
builtin model): space is `+`, unreserved characters stay, everything else is
percent-encoded UTF-8. -/
def formEncodeChar (c : Char) : String :=
  if c = ' ' then "+"
  else if ('0' ≤ c ∧ c ≤ '9') ∨ ('A' ≤ c ∧ c ≤ 'Z') ∨ ('a' ≤ c ∧ c ≤ 'z') ∨
      c = '*' ∨ c = '-' ∨ c = '.' ∨ c = '_' then
    String.singleton c
  else String.join ((utf8EncodeChar c.toNat).map pctOfByte)

/-- Form-urlencoded serialization of a string. -/
def formEncode (s : String) : String :=
  String.join (s.data.map formEncodeChar)

/-- `new URLSearchParams(entries).toString()`. -/
def urlSearchParamsToString (entries : List (String × String)) : String :=
  String.intercalate "&"
    (entries.map (fun kv => formEncode kv.1 ++ "=" ++ formEncode kv.2))

/-- The factory's `handleSpaNavigation(pathname, inputOptions, spaOptions)`:
match the route, prepare the query and the `PageInput` and delegate to the
adapter, the `notFoundPath` of the routes config being spread into the
adapter options only when truthy. `{ctx: null, pageInput: null}` (the absent
`seo` key is modelled as `none`) and no navigation when nothing matches. -/
def handleSpaNavigationFunction {E Ctx : Type}
    (routes : List (String × RouteContract E Ctx))
    (notFoundPath : Option String) (pathname : String)
    (inputOptions : SpaInputOptions) :
    Except Unit (SpaNavigationResult Ctx × List String) :=
  match matchRoute routes pathname with
  | Except.error e => Except.error e
  | Except.ok none => Except.ok (⟨none, none, none⟩, [])
  | Except.ok (some (_key, route, params)) =>
    let query : List (String × QueryVal) :=
      match inputOptions.searchParams with
      | none => []
      | some (SearchParamsArg.usp entries) =>
        (fromEntriesLast entries).map (fun kv => (kv.1, QueryVal.single kv.2))
      | some (SearchParamsArg.str s) => parseQuery ("?" ++ s)
      | some (SearchParamsArg.record entries) =>
        entries.map (fun kv => (kv.1, QueryVal.single kv.2))
    let searchString :=
      match inputOptions.searchParams with
      | none => ""
      | some (SearchParamsArg.str s) => s
      | some (SearchParamsArg.usp entries) => "?" ++ urlSearchParamsToString entries
      | some (SearchParamsArg.record entries) =>
        "?" ++ urlSearchParamsToString entries
    let input : PageInput :=
      { params := params
        query := query
        headers := inputOptions.headers
        cookies := inputOptions.cookies
        request := some ⟨pathname ++ searchString, "GET"⟩ }
    let spaOptions : SpaAdapterOptions :=
      ⟨match notFoundPath with
       | some p => if p = "" then none else some p
       | none => none⟩
    let resNav := handleSpaNavigation route input spaOptions
    Except.ok (⟨resNav.1.ctx, resNav.1.pageInput, resNav.1.seo⟩, resNav.2)

end PageContract

namespace RoutesDsl

/-!
## SEO projection (`packages/routes-dsl/src/index.ts`, `createRoute`)

A configurable SEO field is a literal string or a pure function of the route
params (`((params) => string) | string` in the source).
-/

open PageContract (objGet objSet jsOrOptStr)

/-- A literal-or-function SEO config value. -/
inductive PVal : Type
  | lit (s : String)
  | fn (f : List (String × String) → String)

/-- `typeof value === 'function' ? value(params) : value`. -/
def resolvePVal (params : List (String × String)) : PVal → String
  | PVal.lit s => s
  | PVal.fn f => f params

/-- The `resolve` helper of `createRoute.seo`: `undefined` falls back to the
default, a function is applied to the params, a literal is returned. -/
def resolve (params : List (String × String)) (value : Option PVal)
    (defaultValue : Option String) : Option String :=
  match value with
  | none => defaultValue
  | some v => some (resolvePVal params v)

/-- The `resolveObject` helper: iterate the entries present on the sub-object
(`Object.entries`), resolving each against the per-key default, and return
`undefined` for an empty result. -/
def resolveObject (params : List (String × String))
    (obj : List (String × Option PVal)) (defaults : List (String × String)) :
    Option (List (String × String)) :=
  let result := obj.foldl
    (fun r kv =>
      match resolve params kv.2 (objGet defaults kv.1) with
      | some rv => objSet r kv.1 rv
      | none => r) []
  if result.length > 0 then some result else none

/-- `robots` config/output: optional index and follow directives. -/
structure Robots : Type where
  index : Option Bool
  follow : Option Bool
  deriving DecidableEq, Repr

/-- The non-redirect arm of `SEOConfig`: every field optional, object-valued
sub-fields modelled as entry lists whose values may be explicitly
`undefined` (`none`), matching a JS object literal. -/
structure RegularSeoCfg : Type where
  title : Option PVal
  description : Option PVal
  indexable : Option Bool
  robots : Option Robots
  og : Option (List (String × Option PVal))
  twitter : Option (List (String × Option PVal))
  canonical : Option PVal
  meta : Option (List (String × Option PVal))

/-- `SEOConfig`: the union of a redirect-only config and a regular config
(the source forbids mixing them at the type level). The source field `to`
is called `toUrl` here. -/
inductive SEOConfig : Type
  | redirect (toUrl : PVal) (status : Option Nat)
  | regular (cfg : RegularSeoCfg)

/-- The resolved `redirect` sub-object of a descriptor. -/
structure RedirectOut : Type where
  toUrl : String
  status : Option Nat
  deriving DecidableEq, Repr

/-- The descriptor `createRoute(...).seo(params)` returns. -/
structure SeoOut : Type where
  title : String
  description : String
  indexable : Option Bool
  robots : Option Robots
  redirect : Option RedirectOut
  og : Option (List (String × String))
  twitter : Option (List (String × String))
  canonical : Option String
  meta : Option (List (String × String))
  deriving DecidableEq, Repr

/-- `createRoute(definition, name, ...).seo(params)`: no config gives the
name/empty fallback; a redirect-classified config short-circuits to the
redirect-only descriptor (status defaulting to 301, indexability forced
false); a regular config resolves every field per the source. -/
def seoResolve (seoCfg : Option SEOConfig) (routeName : String)
    (params : List (String × String)) : SeoOut :=
  match seoCfg with
  | none => ⟨routeName, "", none, none, none, none, none, none, none⟩
  | some (SEOConfig.redirect toUrl status) =>
    ⟨routeName, "", some false, some ⟨some false, some false⟩,
      some ⟨resolvePVal params toUrl, some (status.getD 301)⟩,
      none, none, none, none⟩
  | some (SEOConfig.regular cfg) =>
    let title := jsOrOptStr (resolve params cfg.title none) routeName
    let description := jsOrOptStr (resolve params cfg.description none) ""
    let robots :=
      if cfg.robots.isSome ∨ cfg.indexable.isSome then
        let r0 : Robots :=
          if cfg.indexable = some false then ⟨some false, some false⟩
          else ⟨none, none⟩
        let r1 : Robots :=
          match cfg.robots with
          | some rc =>
            ⟨match rc.index with
             | some b => some b
             | none => r0.index,
             match rc.follow with
             | some b => some b
             | none => r0.follow⟩
          | none => r0
        if r1.index.isSome ∨ r1.follow.isSome then some r1 else none
      else none
    let og :=
      match cfg.og with
      | some o =>
        match resolveObject params o
            [("title", title), ("description", description),
              ("type", "website")] with
        | some l => if l.length > 0 then some l else none
        | none => none
      | none => none
    let twitter :=
      match cfg.twitter with
      | some t =>
        match resolveObject params t
            [("card", "summary"), ("title", title),
              ("description", description)] with
        | some l => if l.length > 0 then some l else none
        | none => none
      | none => none
    let canonical := resolve params cfg.canonical none
    let meta :=
      match cfg.meta with
      | some m => resolveObject params m []
      | none => none
    ⟨title, description, cfg.indexable, robots, none, og, twitter, canonical,
      meta⟩

end RoutesDsl

namespace PageContract

/-!
## Specification-side helper definitions

These formalize the wording of the spec's properties so they can be compared
with the behaviour of the translated source functions.
-/

/-- The names of the `:`-prefixed segments of a pattern's segment list. -/
def namedSegs (pp : List String) : List String :=
  pp.filterMap (fun p =>
    if jsStartsWith p ":" then some (jsSlice1 p) else none)

/-- Written from the spec's words: substituting matched parameter values back
into the pattern, named segments replaced by their bound values. -/
def substPattern (pp : List String) (ps : List (String × String)) : List String :=
  pp.map (fun p =>
    if jsStartsWith p ":" then (objGet ps (jsSlice1 p)).getD "" else p)

/-- The binding list a successful equal-length match produces: for every
`:`-segment, its name paired with the pathname segment at that position. -/
def extOf : List String → List String → List (String × String)
  | p :: pr, s :: sr =>
    if jsStartsWith p ":" then (jsSlice1 p, s) :: extOf pr sr else extOf pr sr
  | _, _ => []

/-- Written from claim C9's words: the no-throw reading of `extractParams`
(each bound segment URL-decoded, a segment that fails to decode kept as is —
the two readings coincide exactly on URLs whose segments all decode). -/
def extractSpecGo (urlParts : List String) :
    List String → Nat → List (String × String) → List (String × String)
  | [], _, acc => acc
  | p :: pr, i, acc =>
    if jsStartsWith p ":" then
      match urlParts.get? i with
      | none => extractSpecGo urlParts pr (i + 1) acc
      | some s =>
        extractSpecGo urlParts pr (i + 1)
          (objSet acc (jsSlice1 p) ((decodeURIComponent? s).getD s))
    else extractSpecGo urlParts pr (i + 1) acc

/-- Written from claim C9's words: strip the query string, return the empty
map when the URL path is shorter than the pattern, otherwise bind every
`:name` segment positionally, ignoring literal mismatches and extra trailing
URL segments. -/
def extractParamsSpec (pattern url : String) : List (String × String) :=
  let urlPath := stripQuery url
  let patternParts := segs pattern
  let urlParts := segs urlPath
  if urlParts.length < patternParts.length then []
  else extractSpecGo urlParts patternParts 0 []

/-!
## Concrete instances used by the witnesses
-/

/-- A page input with no params, query, headers, cookies or request. -/
def emptyInput : PageInput :=
  ⟨[], [], none, none, none⟩

/-- Concrete JS builtins over `E := String`, `Ctx := Unit`. -/
def unitJs : JsBuiltins String Unit :=
  ⟨fun e => e, fun _ _ => "", fun _ => "", fun _ => ""⟩

/-- A root route whose page always redirects to `/login` with no status. -/
def redirectRoute : RouteContract String Unit :=
  ⟨"/", fun _ => Except.ok (PageResult.redirect "/login" none)⟩

/-- A request for the site root. -/
def rootRequest : Request :=
  ⟨"http://example.com/", "GET", []⟩

/-- A route whose page always returns `not-found` with no payload. -/
def notFoundRoute : RouteContract String Unit :=
  ⟨"/x", fun _ => Except.ok (PageResult.notFound none none none)⟩

/-- A request for `/x`. -/
def xRequest : Request :=
  ⟨"http://example.com/x", "GET", []⟩

/-- A render hook returning a fixed fragment. -/
def nfRender :
    CtxLike Unit → Option SeoDescriptor → Request → Option PageViewInput → String :=
  fun _ _ _ _ => "NF"

/-- A request for an unmatched path. -/
def unknownRequest : Request :=
  ⟨"http://example.com/unknown", "GET", []⟩

/-- A registry holding only the root redirect route. -/
def homeRoutes : List (String × RouteContract String Unit) :=
  [("home", redirectRoute)]

/-- Handler options rendering a fixed fragment, everything else defaulted. -/
def plainOpts : CreateHandleRequestOptions String Unit :=
  ⟨nfRender, none, none, none, none⟩

end PageContract

namespace PageContract

/-!
## Supporting lemmas about object assignment and matching
-/

/-- Assignment of a fresh key appends the entry. -/
theorem objSet_of_not_mem (ps : List (String × String)) (k v : String)
    (h : ∀ p ∈ ps, p.1 ≠ k) : objSet ps k v = ps ++ [(k, v)] := by
  induction ps with
  | nil => rfl
  | cons q rest ih =>
    have hq : q.1 ≠ k := h q (List.mem_cons_self q rest)
    simp only [objSet]
    rw [if_neg hq, ih (fun p hp => h p (List.mem_cons_of_mem q hp))]
    rfl

/-- Lookup skips a prefix that does not hold the key. -/
theorem objGet_append_right (ps qs : List (String × String)) (k : String)
    (h : ∀ p ∈ ps, p.1 ≠ k) : objGet (ps ++ qs) k = objGet qs k := by
  induction ps with
  | nil => rfl
  | cons q rest ih =>
    have hq : q.1 ≠ k := h q (List.mem_cons_self q rest)
    simp only [List.cons_append, objGet]
    rw [if_neg hq]
    exact ih (fun p hp => h p (List.mem_cons_of_mem q hp))

/-- A `:`-headed pattern segment contributes its name to `namedSegs`. -/
theorem namedSegs_cons_param (p : String) (pp : List String)
    (h : jsStartsWith p ":") :
    namedSegs (p :: pp) = jsSlice1 p :: namedSegs pp := by
  simp [namedSegs, h]

/-- A literal pattern segment contributes nothing to `namedSegs`. -/
theorem namedSegs_cons_lit (p : String) (pp : List String)
    (h : ¬jsStartsWith p ":") : namedSegs (p :: pp) = namedSegs pp := by
  simp [namedSegs, h]

/-- The keys of the binding list of an equal-length match are exactly the
named segments, in order. -/
theorem extOf_keys (pp : List String) (sp : List String)
    (h : pp.length = sp.length) :
    (extOf pp sp).map Prod.fst = namedSegs pp := by
  induction pp generalizing sp with
  | nil =>
    cases sp with
    | nil => rfl
    | cons s sr => simp at h
  | cons p pr ih =>
    cases sp with
    | nil => simp at h
    | cons s sr =>
      have h' : pr.length = sr.length := by simpa using h
      by_cases hp : jsStartsWith p ":"
      · rw [namedSegs_cons_param p pr hp]
        simp only [extOf, if_pos hp, List.map_cons]
        rw [ih sr h']
      · rw [namedSegs_cons_lit p pr hp]
        simp only [extOf, if_neg hp]
        exact ih sr h'

/-- What the matching loop computes: the accumulator extended by the binding
list, provided the named segments are distinct, no accumulator key is one of
them, and every pathname segment is unchanged by URL-decoding; literal
segments are moreover equal to their pathname segments. -/
theorem matchSegs_eq (pp : List String) :
    ∀ (sp : List String) (acc ps : List (String × String)),
    (namedSegs pp).Nodup →
    (∀ p ∈ acc, p.1 ∉ namedSegs pp) →
    (∀ s ∈ sp, decodeURIComponent? s = some s) →
    matchSegs pp sp acc = Except.ok (some ps) →
    ps = acc ++ extOf pp sp ∧
      ∀ pr ∈ pp.zip sp, ¬jsStartsWith pr.1 ":" → pr.1 = pr.2 := by
  induction pp with
  | nil =>
    intro sp acc ps _ _ _ h
    cases sp with
    | nil =>
      refine ⟨?_, by simp⟩
      simp only [matchSegs] at h
      cases h
      simp [extOf]
    | cons s sr => simp [matchSegs] at h
  | cons p pr ih =>
    intro sp acc ps hnd hacc hdec h
    cases sp with
    | nil => simp [matchSegs] at h
    | cons s sr =>
      simp only [matchSegs] at h
      by_cases hp : jsStartsWith p ":"
      · rw [if_pos hp] at h
        rw [hdec s (List.mem_cons_self s sr)] at h
        have h2 : matchSegs pr sr (objSet acc (jsSlice1 p) s) =
            Except.ok (some ps) := h
        rw [namedSegs_cons_param p pr hp] at hnd hacc
        have hfresh : ∀ q ∈ acc, q.1 ≠ jsSlice1 p := by
          intro q hq
          have := hacc q hq
          intro hqe
          exact this (hqe ▸ List.mem_cons_self _ _)
        have hset : objSet acc (jsSlice1 p) s = acc ++ [(jsSlice1 p, s)] :=
          objSet_of_not_mem acc (jsSlice1 p) s hfresh
        rw [hset] at h2
        have hacc' : ∀ q ∈ acc ++ [(jsSlice1 p, s)], q.1 ∉ namedSegs pr := by
          intro q hq
          rcases List.mem_append.1 hq with hq1 | hq2
          · exact fun hmem => hacc q hq1 (List.mem_cons_of_mem _ hmem)
          · have : q = (jsSlice1 p, s) := by simpa using hq2
            subst this
            exact List.Nodup.not_mem hnd
        obtain ⟨hps, hlit⟩ := ih sr (acc ++ [(jsSlice1 p, s)]) ps
          (List.Nodup.of_cons hnd) hacc'
          (fun t ht => hdec t (List.mem_cons_of_mem s ht)) h2
        constructor
        · rw [hps]
          simp only [extOf, if_pos hp]
          simp [List.append_assoc]
        · intro q hq hqs
          rcases List.mem_cons.1 hq with hq1 | hq2
          · subst hq1; exact absurd hp hqs
          · exact hlit q hq2 hqs
      · rw [if_neg hp] at h
        by_cases hpe : p = s
        · rw [if_pos hpe] at h
          rw [namedSegs_cons_lit p pr hp] at hnd hacc
          obtain ⟨hps, hlit⟩ := ih sr acc ps hnd hacc
            (fun t ht => hdec t (List.mem_cons_of_mem s ht)) h
          constructor
          · rw [hps]
            simp [extOf, if_neg hp]
          · intro q hq hqs
            rcases List.mem_cons.1 hq with hq1 | hq2
            · subst hq1; exact hpe
            · exact hlit q hq2 hqs
        · rw [if_neg hpe] at h
          simp at h

/-- Substitution ignores a leading binding whose key is not a named segment. -/
theorem substPattern_cons_irrel (pp : List String)
    (ps : List (String × String)) (k v : String) (h : k ∉ namedSegs pp) :
    substPattern pp ((k, v) :: ps) = substPattern pp ps := by
  unfold substPattern
  apply List.map_congr_left
  intro p hp
  by_cases hps : jsStartsWith p ":"
  · have hk : k ≠ jsSlice1 p := by
      intro hke
      apply h
      rw [hke]
      unfold namedSegs
      exact List.mem_filterMap.2 ⟨p, hp, by simp [hps]⟩
    simp only [hps, if_pos, objGet]
    rw [if_neg hk]
  · simp [hps]

/-- Substituting the binding list of an equal-length match back into the
pattern reproduces the pathname segments. -/
theorem substPattern_extOf (pp : List String) :
    ∀ sp : List String, pp.length = sp.length →
    (namedSegs pp).Nodup →
    (∀ pr ∈ pp.zip sp, ¬jsStartsWith pr.1 ":" → pr.1 = pr.2) →
    substPattern pp (extOf pp sp) = sp := by
  induction pp with
  | nil =>
    intro sp h _ _
    cases sp with
    | nil => rfl
    | cons s sr => simp at h
  | cons p pr ih =>
    intro sp h hnd hlit
    cases sp with
    | nil => simp at h
    | cons s sr =>
      have h' : pr.length = sr.length := by simpa using h
      by_cases hp : jsStartsWith p ":"
      · rw [namedSegs_cons_param p pr hp] at hnd
        simp only [extOf, if_pos hp, substPattern, List.map_cons]
        rw [List.cons_eq_cons]
        constructor
        · simp [hp, objGet]
        · have hirr := substPattern_cons_irrel pr (extOf pr sr) (jsSlice1 p) s
            (List.Nodup.not_mem hnd)
          unfold substPattern at hirr
          rw [hirr]
          exact ih sr h' (List.Nodup.of_cons hnd)
            (fun q hq => hlit q (List.mem_cons_of_mem _ hq))
      · rw [namedSegs_cons_lit p pr hp] at hnd
        simp only [extOf, if_neg hp, substPattern, List.map_cons]
        rw [List.cons_eq_cons]
        constructor
        · exact hlit (p, s) (by simp) hp
        · exact ih sr h' hnd (fun q hq => hlit q (List.mem_cons_of_mem _ hq))

/-- The matching loop agrees with its no-throw reading when every URL segment
decodes. -/
theorem extractGo_eq_spec (up : List String) (pp : List String) :
    ∀ (i : Nat) (acc : List (String × String)),
    (∀ s ∈ up, (decodeURIComponent? s).isSome) →
    extractGo up pp i acc = Except.ok (extractSpecGo up pp i acc) := by
  induction pp with
  | nil => intro i acc _; rfl
  | cons p pr ih =>
    intro i acc h
    simp only [extractGo, extractSpecGo]
    by_cases hp : jsStartsWith p ":"
    · rw [if_pos hp, if_pos hp]
      cases hg : up.get? i with
      | none => exact ih (i + 1) acc h
      | some s =>
        have hs : s ∈ up := List.get?_mem hg
        obtain ⟨v, hv⟩ := Option.isSome_iff_exists.1 (h s hs)
        simp only [hv, Option.getD_some]
        exact ih (i + 1) (objSet acc (jsSlice1 p) v) h
    · rw [if_neg hp, if_neg hp]
      exact ih (i + 1) acc h

end PageContract

/-!
## The claims
-/

open PageContract RoutesDsl

/-- C1: for every page function that throws synchronously or returns a
rejecting promise, `runPage` yields `{type: 'error', error: <the original
thrown value>, status: 500}`; the total return type of the embedding is the
statement that no exception escapes the dispatcher boundary. -/
theorem claim1_runPage_catches {E Ctx : Type} (page : PageFunction E Ctx)
    (input : PageInput) (e : E) (h : page input = Except.error e) :
    runPage page input = PageResult.error e (some 500) := by
  unfold runPage
  rw [h]

/-- Witness for C1 at a concrete throwing page function. -/
theorem claim1_witness :
    (fun (_ : PageInput) =>
      (Except.error "boom" : Except String (PageResult String Unit)))
        emptyInput = Except.error "boom" ∧
    @runPage String Unit (fun _ => Except.error "boom") emptyInput =
      PageResult.error "boom" (some 500) :=
  ⟨rfl, claim1_runPage_catches _ emptyInput "boom" rfl⟩

/-- Counterexample to C2: the pattern `/products/:category?` does not match
the one-segment-shorter pathname `/products` (the matcher returns `null`),
and on `/products/electronics` the binding key keeps the question mark. -/
theorem claim2_counterexample :
    matchPath "/products/:category?" "/products" = Except.ok none ∧
    matchPath "/products/:category?" "/products/electronics" =
      Except.ok (some [("category?", "electronics")]) := by
  constructor
  · rfl
  · decide

/-- C2 as amended: `matchPath` gives no special treatment to a trailing
`:name?` segment — any pathname whose non-empty segment count differs from
the pattern's fails to match. -/
theorem claim2_amended (pattern pathname : String)
    (h : (segs pattern).length ≠ (segs pathname).length) :
    matchPath pattern pathname = Except.ok none := by
  unfold matchPath
  rw [if_pos h]

/-- Witness for the amended C2 at the claim's own scenario. -/
theorem claim2_witness :
    (segs "/products/:category?").length ≠ (segs "/products").length ∧
    matchPath "/products/:category?" "/products" = Except.ok none :=
  ⟨by decide, claim2_amended _ _ (by decide)⟩

/-- Counterexample to C3: matching URL-decodes the bound segment, so
substituting the parameter values back into the pattern rebuilds the decoded
pathname `/a b`, not the original `/a%20b`; with a repeated parameter name
the last binding wins and reconstruction also fails. -/
theorem claim3_counterexample :
    matchPath "/:x" "/a%20b" = Except.ok (some [("x", "a b")]) ∧
    "/" ++ String.intercalate "/" (substPattern (segs "/:x") [("x", "a b")]) =
      "/a b" ∧
    "/a b" ≠ "/a%20b" ∧
    matchPath "/:x/:x" "/a/b" = Except.ok (some [("x", "b")]) ∧
    "/" ++ String.intercalate "/"
        (substPattern (segs "/:x/:x") [("x", "b")]) = "/b/b" ∧
    "/b/b" ≠ "/a/b" := by
  refine ⟨by decide, by decide, by decide, by decide, by decide, by decide⟩

/-- C3 as amended: on an equal-segment-count match whose pattern has distinct
parameter names and whose pathname segments are unchanged by URL-decoding,
the returned params have exactly the pattern's `:`-named segments as keys (in
order), and substituting them back into the pattern reconstructs the pathname
(stated for a pathname written as slash-joined non-empty segments). -/
theorem claim3_amended (pattern pathname : String)
    (ps : List (String × String))
    (h1 : matchPath pattern pathname = Except.ok (some ps))
    (h2 : (namedSegs (segs pattern)).Nodup)
    (h3 : ∀ s ∈ segs pathname, decodeURIComponent? s = some s)
    (h4 : pathname = "/" ++ String.intercalate "/" (segs pathname)) :
    ps.map Prod.fst = namedSegs (segs pattern) ∧
    "/" ++ String.intercalate "/" (substPattern (segs pattern) ps) =
      pathname := by
  unfold matchPath at h1
  by_cases hl : (segs pattern).length = (segs pathname).length
  · rw [if_neg (by simp [hl])] at h1
    obtain ⟨hps, hlit⟩ :=
      matchSegs_eq (segs pattern) (segs pathname) [] ps h2 (by simp) h3 h1
    have hext : ps = extOf (segs pattern) (segs pathname) := by simpa using hps
    constructor
    · rw [hext, extOf_keys _ _ hl]
    · rw [hext, substPattern_extOf _ _ hl h2 hlit]
      exact h4.symm
  · rw [if_pos hl] at h1
    simp at h1

/-- Witness for the amended C3 at the spec's scenario
`/profile/:id` vs `/profile/42`. -/
theorem claim3_witness :
    matchPath "/profile/:id" "/profile/42" = Except.ok (some [("id", "42")]) ∧
    (namedSegs (segs "/profile/:id")).Nodup ∧
    (∀ s ∈ segs "/profile/42", decodeURIComponent? s = some s) ∧
    "/profile/42" = "/" ++ String.intercalate "/" (segs "/profile/42") ∧
    ([("id", "42")] : List (String × String)).map Prod.fst =
      namedSegs (segs "/profile/:id") ∧
    "/" ++ String.intercalate "/"
        (substPattern (segs "/profile/:id") [("id", "42")]) = "/profile/42" :=
  ⟨by decide, by decide, by decide, by decide,
    (claim3_amended "/profile/:id" "/profile/42" [("id", "42")] (by decide)
      (by decide) (by decide) (by decide)).1,
    (claim3_amended "/profile/:id" "/profile/42" [("id", "42")] (by decide)
      (by decide) (by decide) (by decide)).2⟩

/-- C4: a pathname matched by no registered route makes the SSR request
handler return a 404 response, and makes the SPA entry point return
`{ctx: null, pageInput: null}` without navigating. Both conclusions hold for
every registry with these matching outcomes and every page-function
assignment, so no page function influences (or is invoked for) the result. -/
theorem claim4_no_match {E Ctx : Type}
    (routes : List (String × RouteContract E Ctx))
    (opts : CreateHandleRequestOptions E Ctx) (js : JsBuiltins E Ctx)
    (request : Request) (nfp : Option String) (pathname : String)
    (inputOptions : SpaInputOptions)
    (h1 : matchRoute routes (urlPathname request.url) = Except.ok none)
    (h2 : matchRoute routes pathname = Except.ok none) :
    createHandleRequest routes opts js request =
      Except.ok ⟨404, some "<html><body><h1>404 Not Found</h1></body></html>",
        [("Content-Type", "text/html; charset=utf-8")]⟩ ∧
    handleSpaNavigationFunction routes nfp pathname inputOptions =
      Except.ok (⟨none, none, none⟩, []) := by
  constructor
  · simp only [createHandleRequest, h1]
  · simp only [handleSpaNavigationFunction, h2]

/-- Witness for C4: the spec's `/unknown` scenario against a one-route
registry. -/
theorem claim4_witness :
    matchRoute homeRoutes (urlPathname unknownRequest.url) = Except.ok none ∧
    matchRoute homeRoutes "/unknown" = Except.ok none ∧
    createHandleRequest homeRoutes plainOpts unitJs unknownRequest =
      Except.ok ⟨404, some "<html><body><h1>404 Not Found</h1></body></html>",
        [("Content-Type", "text/html; charset=utf-8")]⟩ ∧
    handleSpaNavigationFunction homeRoutes none "/unknown" ⟨none, none, none⟩ =
      Except.ok (⟨none, none, none⟩, []) :=
  ⟨rfl, rfl,
    (claim4_no_match homeRoutes plainOpts unitJs unknownRequest none
      "/unknown" ⟨none, none, none⟩ rfl rfl).1,
    (claim4_no_match homeRoutes plainOpts unitJs unknownRequest none
      "/unknown" ⟨none, none, none⟩ rfl rfl).2⟩

/-- C5: a `{type: 'redirect', to}` result carrying no status makes the SSR
fetch adapter respond 302 with a `Location` header equal to the target, and
makes the SPA adapter expose no route context while performing exactly one
navigation to the target — which the repository's React Router adapter turns
into a history replace (`replace: true`), never a push. -/
theorem claim5_redirect_dispatch {E Ctx : Type} (route : RouteContract E Ctx)
    (request : Request) (opts : SsrFetchAdapterOptions E Ctx)
    (js : JsBuiltins E Ctx) (ps : List (String × String)) (target : String)
    (input2 : PageInput) (spaOpts : SpaAdapterOptions)
    (h1 : extractParams route.path (urlPathname request.url) = Except.ok ps)
    (h2 : route.page (ssrInput ps request) =
      Except.ok (PageResult.redirect target none))
    (h3 : route.page input2 = Except.ok (PageResult.redirect target none)) :
    handleSsrRequestFetch route request opts js =
      Except.ok ⟨302, none, [("Location", target)]⟩ ∧
    handleSpaNavigation route input2 spaOpts =
      (⟨none, some ⟨input2, PageResultType.redirect⟩, none⟩, [target]) ∧
    (handleSpaNavigation route input2 spaOpts).2.map reactRouterNavigate =
      [⟨target, true⟩] ∧
    ∀ op ∈ (handleSpaNavigation route input2 spaOpts).2.map
      reactRouterNavigate, op.replace = true := by
  have hspa : handleSpaNavigation route input2 spaOpts =
      (⟨none, some ⟨input2, PageResultType.redirect⟩, none⟩, [target]) := by
    simp only [handleSpaNavigation, runPage, h3]
  refine ⟨?_, hspa, ?_, ?_⟩
  · simp only [handleSsrRequestFetch, h1, runPage, h2, jsOrNat]
  · rw [hspa]; rfl
  · rw [hspa]
    intro op hop
    simp only [List.map_cons, List.map_nil, List.mem_singleton] at hop
    rw [hop]
    rfl

/-- Witness for C5: the spec's `/login` scenario. -/
theorem claim5_witness :
    extractParams redirectRoute.path (urlPathname rootRequest.url) =
      Except.ok [] ∧
    redirectRoute.page (ssrInput [] rootRequest) =
      Except.ok (PageResult.redirect "/login" none) ∧
    redirectRoute.page emptyInput =
      Except.ok (PageResult.redirect "/login" none) ∧
    handleSsrRequestFetch redirectRoute rootRequest ⟨none, none, none⟩ unitJs =
      Except.ok ⟨302, none, [("Location", "/login")]⟩ ∧
    handleSpaNavigation redirectRoute emptyInput ⟨none⟩ =
      (⟨none, some ⟨emptyInput, PageResultType.redirect⟩, none⟩, ["/login"]) ∧
    (handleSpaNavigation redirectRoute emptyInput ⟨none⟩).2.map
      reactRouterNavigate = [⟨"/login", true⟩] :=
  ⟨rfl, rfl, rfl,
    (claim5_redirect_dispatch redirectRoute rootRequest ⟨none, none, none⟩
      unitJs [] "/login" emptyInput ⟨none⟩ rfl rfl rfl).1,
    (claim5_redirect_dispatch redirectRoute rootRequest ⟨none, none, none⟩
      unitJs [] "/login" emptyInput ⟨none⟩ rfl rfl rfl).2.1,
    (claim5_redirect_dispatch redirectRoute rootRequest ⟨none, none, none⟩
      unitJs [] "/login" emptyInput ⟨none⟩ rfl rfl rfl).2.2.1⟩

/-- C6: a redirect-classified SEO config resolves to exactly
`{title: routeName, description: '', indexable: false,
robots: {index: false, follow: false}, redirect: {to, status}}`, the status
defaulting to 301 when unspecified, with og, twitter, canonical and meta all
absent. -/
theorem claim6_redirect_seo_shape (routeName : String)
    (params : List (String × String)) (target : PVal) (status : Option Nat) :
    seoResolve (some (SEOConfig.redirect target status)) routeName params =
      ⟨routeName, "", some false, some ⟨some false, some false⟩,
        some ⟨resolvePVal params target, some (status.getD 301)⟩,
        none, none, none, none⟩ :=
  rfl

/-- C7 (code bug): with the sub-object `og: { image: 'img.png' }` present and
a resolved title `Product`, the resolver emits `og` with only the `image`
key — no `title`, `description` or `type` default is filled in, because
`resolveObject` iterates only the keys present on the config object. The
defaults apply only to a key explicitly set to `undefined`, as the second
conjunct shows; the third shows an absent sub-object is omitted entirely. -/
theorem claim7_og_default_bug :
    (seoResolve (some (SEOConfig.regular
        ⟨some (PVal.lit "Product"), none, none, none,
          some [("image", some (PVal.lit "img.png"))],
          none, none, none⟩)) "product" []).og =
      some [("image", "img.png")] ∧
    (seoResolve (some (SEOConfig.regular
        ⟨some (PVal.lit "Product"), none, none, none,
          some [("title", none), ("image", some (PVal.lit "img.png"))],
          none, none, none⟩)) "product" []).og =
      some [("title", "Product"), ("image", "img.png")] ∧
    (seoResolve (some (SEOConfig.regular
        ⟨some (PVal.lit "Product"), none, none, none, none,
          none, none, none⟩)) "product" []).og = none :=
  ⟨rfl, rfl, rfl⟩

/-- C8 (code bug): on a `not-found` result the current SPA adapter exposes
the sentinel context and performs no navigation even though
`notFoundPath: '/404'` is configured (first conjunct — the option is read
nowhere in the branch), while the legacy adapter navigates to `/404` even
when no `notFoundPath` is configured (second conjunct). Neither adapter
implements the documented distinction. -/
theorem claim8_notfound_path_bug :
    handleSpaNavigation notFoundRoute emptyInput ⟨some "/404"⟩ =
      (⟨some CtxLike.notFoundSentinel,
        some ⟨emptyInput, PageResultType.notFound⟩, none⟩, []) ∧
    handleSpaNavigationLegacy notFoundRoute emptyInput ⟨none⟩ =
      (none, ["/404"]) :=
  ⟨rfl, rfl⟩

/-- Counterexample to C9: `extractParams` is not total — on the pattern
`/:x` and the URL `/%`, `decodeURIComponent` throws `URIError`
(`Except.error` in the embedding) and the exception escapes. -/
theorem claim9_counterexample :
    extractParams "/:x" "/%" = Except.error () := by
  decide

/-- C9 as amended: on every URL all of whose path segments are well-formed
percent-encodings, `extractParams` never throws and never reports a failed
match: it strips the query string, returns the empty map when the URL path
has fewer non-empty segments than the pattern, and otherwise binds each
`:name` pattern segment to the URL-decoded URL segment at the same index,
ignoring literal-segment mismatches and extra trailing URL segments — the
behaviour `extractParamsSpec` spells out. -/
theorem claim9_amended (pattern url : String)
    (h : ∀ s ∈ segs (stripQuery url), (decodeURIComponent? s).isSome) :
    extractParams pattern url = Except.ok (extractParamsSpec pattern url) := by
  simp only [extractParams, extractParamsSpec]
  by_cases hl : (segs (stripQuery url)).length < (segs pattern).length
  · rw [if_pos hl, if_pos hl]
  · rw [if_neg hl, if_neg hl]
    exact extractGo_eq_spec _ _ 0 [] h

/-- Witness for the amended C9: `/profile/:id` against `/profile/42?tab=1`
(query stripped, literal segment ignored, `id` bound). -/
theorem claim9_witness :
    (∀ s ∈ segs (stripQuery "/profile/42?tab=1"),
      (decodeURIComponent? s).isSome) ∧
    extractParams "/profile/:id" "/profile/42?tab=1" =
      Except.ok (extractParamsSpec "/profile/:id" "/profile/42?tab=1") ∧
    extractParamsSpec "/profile/:id" "/profile/42?tab=1" = [("id", "42")] :=
  ⟨by decide, claim9_amended "/profile/:id" "/profile/42?tab=1" (by decide),
    by decide⟩

/-- C10: a `{type: 'not-found'}` result with no `ctx` payload makes the SSR
fetch adapter render the sentinel `{notFound: true}` through the normal
`renderHtml` hook at status 404 (the result's status override taking
precedence via `result.status || 404`), and makes the current SPA adapter
expose the sentinel as `ctx` with `resultType: 'not-found'`. -/
theorem claim10_notfound_sentinel {E Ctx : Type} (route : RouteContract E Ctx)
    (request : Request) (js : JsBuiltins E Ctx)
    (rh : CtxLike Ctx → Option SeoDescriptor → Request → Option PageViewInput →
      String)
    (r404 : Option (Unit → String)) (rerr : Option (E → Option Nat → String))
    (ps : List (String × String)) (seoV : Option SeoDescriptor)
    (stV : Option Nat) (input2 : PageInput) (spaOpts : SpaAdapterOptions)
    (h1 : extractParams route.path (urlPathname request.url) = Except.ok ps)
    (h2 : route.page (ssrInput ps request) =
      Except.ok (PageResult.notFound none seoV stV))
    (h3 : route.page input2 = Except.ok (PageResult.notFound none seoV stV)) :
    handleSsrRequestFetch route request ⟨some rh, r404, rerr⟩ js =
      Except.ok ⟨jsOrNat stV 404,
        some (rh CtxLike.notFoundSentinel seoV request
          (some ⟨ssrInput ps request, PageResultType.notFound⟩)),
        [("Content-Type", "text/html; charset=utf-8")]⟩ ∧
    handleSpaNavigation route input2 spaOpts =
      (⟨some CtxLike.notFoundSentinel,
        some ⟨input2, PageResultType.notFound⟩, seoV⟩, []) := by
  constructor
  · simp only [handleSsrRequestFetch, h1, runPage, h2]
  · simp only [handleSpaNavigation, runPage, h3]

/-- Witness for C10: a page answering `not-found` with no payload, rendered
by a fixed hook. -/
theorem claim10_witness :
    extractParams notFoundRoute.path (urlPathname xRequest.url) =
      Except.ok [] ∧
    notFoundRoute.page (ssrInput [] xRequest) =
      Except.ok (PageResult.notFound none none none) ∧
    notFoundRoute.page emptyInput =
      Except.ok (PageResult.notFound none none none) ∧
    handleSsrRequestFetch notFoundRoute xRequest ⟨some nfRender, none, none⟩
        unitJs =
      Except.ok ⟨jsOrNat none 404,
        some (nfRender CtxLike.notFoundSentinel none xRequest
          (some ⟨ssrInput [] xRequest, PageResultType.notFound⟩)),
        [("Content-Type", "text/html; charset=utf-8")]⟩ ∧
    handleSpaNavigation notFoundRoute emptyInput ⟨none⟩ =
      (⟨some CtxLike.notFoundSentinel,
        some ⟨emptyInput, PageResultType.notFound⟩, none⟩, []) :=
  ⟨rfl, rfl, rfl,
    (claim10_notfound_sentinel notFoundRoute xRequest unitJs nfRender none
      none [] none none emptyInput ⟨none⟩ rfl rfl rfl).1,
    (claim10_notfound_sentinel notFoundRoute xRequest unitJs nfRender none
      none [] none none emptyInput ⟨none⟩ rfl rfl rfl).2⟩
